import Mathlib

/-
  Verification of the corner-kick Play
  (src/software/ai/hl/stp/play/corner_kick_play.cpp).

  The development has two parts.

  Part A embeds the world-facing predicates and the align-to-ball geometry:
  `isApplicable` (lines 22-30), `invariantHolds` (lines 32-37) and
  `updateAlignToBallTactic` (lines 217-227).  Geometry is exact real
  arithmetic (the code computes with doubles); the external collaborator
  types that are not part of the repository snapshot (GameState, Field,
  the possession evaluation functions, the Vector class and the shared
  constants header) are modelled from the spec as abstract data.

  Part B embeds the coroutine control flow of `getNextTactics`
  (lines 39-105) and `setupPass` (lines 107-215).  Each loop of the
  source becomes a fuel-indexed recursive function over the streams of
  values the external world feeds the Play at each resumption (assigned
  robot, done flags, optimizer incumbent, timestamps), and each run
  produces the trace of observable actions (optimizer pushes and reads,
  passer registration, tactic-parameter updates, yields) in program
  order.  Tick indices count resumptions: index t names the world
  snapshot the Play sees after the t-th yield, and the index advances by
  one exactly at each yield.
-/

/-! ## Part A: world model and pure predicates -/

/-- A planar point or vector, with exact real coordinates standing for the
doubles of the source. -/
abbrev Point := ℝ × ℝ

/-- Componentwise difference `a - b`, the Vector subtraction of the source's
geometry library. -/
def vsub (a b : Point) : Point := (a.1 - b.1, a.2 - b.2)

/-- Scalar multiple of a vector. -/
def vscale (c : ℝ) (v : Point) : Point := (c * v.1, c * v.2)

/-- Euclidean length, `Vector::length()`. Modelled from the spec: the Vector
class itself is an external geometry collaborator not under src/. -/
noncomputable def vlength (v : Point) : ℝ := Real.sqrt (v.1 ^ 2 + v.2 ^ 2)

/-- `Vector::normalize(length)`: the vector scaled to the given length.
Modelled from the spec ("offset by twice the robot's physical radius"):
the Vector class is not under src/. -/
noncomputable def vnormalize (v : Point) (len : ℝ) : Point :=
  (len * v.1 / vlength v, len * v.2 / vlength v)

/-- Modelled from the spec: the game-state tag of the World Snapshot.  The
GameState class is not under src/; the four predicates the Play reads are
kept as abstract boolean observations. -/
structure GameState where
  isPlaying : Bool
  isReadyState : Bool
  isOurFreeKick : Bool
  isTheirFreeKick : Bool

/-- Modelled from the spec: the field-geometry accessors the Play reads.
The Field class is not under src/. -/
structure FieldGeom where
  enemyCornerPos : Point
  enemyCornerNeg : Point

/-- The per-tick world snapshot, restricted to what the embedded functions
read.  `enemyTeamHasPossession` stands for
`teamHasPossession(world, world.enemyTeam())` and `friendlyPassInProgress`
for `teamPassInProgress(world, world.friendlyTeam())`; both evaluation
functions live outside src/ and are modelled from the spec as abstract
boolean observations of the snapshot. -/
structure World where
  field : FieldGeom
  ballPosition : Point
  gameState : GameState
  enemyTeamHasPossession : Bool
  friendlyPassInProgress : Bool

/-- Modelled from the spec: the fixed corner radius.  The header declaring
`BALL_IN_CORNER_RADIUS` is not under src/; the claims hold for any fixed
positive value, so an arbitrary representative is used. -/
noncomputable def BALL_IN_CORNER_RADIUS : ℝ := 1 / 2

/-- Modelled from the spec: the robot's physical radius from the shared
constants header, which is not under src/.  The claims hold for any
positive value. -/
noncomputable def ROBOT_MAX_RADIUS_METERS : ℝ := 9 / 100

/-- `CornerKickPlay::isApplicable` (corner_kick_play.cpp lines 22-30):
our team has a free kick and the ball is within `BALL_IN_CORNER_RADIUS`
of the nearer attacking corner. -/
noncomputable def isApplicable (w : World) : Prop :=
  w.gameState.isOurFreeKick = true ∧
    min (vlength (vsub w.field.enemyCornerPos w.ballPosition))
        (vlength (vsub w.field.enemyCornerNeg w.ballPosition)) ≤
      BALL_IN_CORNER_RADIUS

/-- `CornerKickPlay::invariantHolds` (corner_kick_play.cpp lines 32-37). -/
def invariantHolds (w : World) : Bool :=
  (w.gameState.isPlaying || w.gameState.isReadyState) &&
    (!w.enemyTeamHasPossession || w.friendlyPassInProgress)

/-- The control parameters `updateAlignToBallTactic` pushes into the
MoveTactic: a destination point, the vector whose orientation is the
target orientation (the Angle class is not under src/, so the orientation
is carried as the vector it is taken of), and a final speed. -/
structure MoveTacticParams where
  dest : Point
  orientationOf : Point
  finalSpeed : ℝ

/-- `CornerKickPlay::updateAlignToBallTactic` (corner_kick_play.cpp lines
217-227): place the kicker behind the ball, facing the field centre,
offset by twice the robot radius. -/
noncomputable def updateAlignToBallTactic (w : World) : MoveTacticParams :=
  let ball_to_center_vec : Point := vsub (0, 0) w.ballPosition
  { dest := vsub w.ballPosition (vnormalize ball_to_center_vec (ROBOT_MAX_RADIUS_METERS * 2)),
    orientationOf := ball_to_center_vec,
    finalSpeed := 0 }

/-! ## Part B: control-flow model of getNextTactics / setupPass -/

/-- Identities of the tactic instances the Play constructs.  Each
constructor names one shared-pointer instance of the source; instances are
created once and persist, so identity equality models object identity. -/
inductive TacticId where
  | goalie
  | alignToBall
  | cherryPickPosY
  | cherryPickNegY
  | baitMove1
  | baitMove2
  | passer
  | receiver
deriving DecidableEq, Repr

/-- A committed Pass is treated as an opaque immutable value; no claim
inspects its fields. -/
abbrev Pass := ℕ

/-- `PassWithRating`: a pass together with its quality score. -/
structure PassWithRating where
  pass : Pass
  rating : ℚ
deriving DecidableEq, Repr

/-- Observable actions of one Play run, in program order.  Tick indices on
events name the world snapshot in effect when the action happened. -/
inductive Event where
  | updateAlign (t : ℕ)
  | setWorld (t : ℕ)
  | setPasserPoint (t : ℕ)
  | registerPasser (rid : ℕ)
  | readBest (t : ℕ)
  | yieldTactics (tactics : List TacticId)
  | applyPass (who : TacticId) (p : Pass)
deriving DecidableEq, Repr

/-- The tactic set yielded during the waiting, aligning and deciding loops
(corner_kick_play.cpp lines 162-163, 179-180, 195-196), in source order. -/
def alignStageTactics : List TacticId :=
  [.goalie, .alignToBall, .cherryPickPosY, .cherryPickNegY, .baitMove1, .baitMove2]

/-- The tactic set yielded each tick of the execute loop
(corner_kick_play.cpp line 101), in source order. -/
def executeStageTactics : List TacticId :=
  [.goalie, .passer, .receiver, .baitMove1, .baitMove2]

/-- The acceptance threshold computed each Decide iteration
(corner_kick_play.cpp lines 204-206): `1 - std::min(elapsed / T, 1.0)`. -/
def minScore (elapsed T : ℚ) : ℚ := 1 - min (elapsed / T) 1

/-- The external inputs one Play run observes, as streams over tick
indices: `assigned t` is the align tactic's assigned robot at tick t,
`alignDone t` its done flag, `best t` the optimizer incumbent read at
tick t, `ts t` the world timestamp (seconds) at tick t, `receiverDone t`
the receiver tactic's done flag, and `MAX_TIME_TO_COMMIT_TO_PASS` the
configured commit duration read at construction. -/
structure PlayEnv where
  assigned : ℕ → Option ℕ
  alignDone : ℕ → Bool
  best : ℕ → PassWithRating
  ts : ℕ → ℚ
  receiverDone : ℕ → Bool
  MAX_TIME_TO_COMMIT_TO_PASS : ℚ

/-- The wait-for-assignment loop of `setupPass` (lines 156-164): while no
robot is assigned to the align tactic, update the align tactic and the
pass generator and yield the align-stage set.  Returns the trace and, on
exit, the tick at which an assignment was first observed; `none` means the
fuel ran out with the loop still waiting. -/
def waitLoop (assigned : ℕ → Option ℕ) : ℕ → ℕ → List Event × Option ℕ
  | 0, _ => ([], none)
  | fuel + 1, t =>
    match assigned t with
    | some _ => ([], some t)
    | none =>
      let r := waitLoop assigned fuel (t + 1)
      (.updateAlign t :: .setWorld t :: .setPasserPoint t ::
        .yieldTactics alignStageTactics :: r.1, r.2)

/-- The aligning do-while loop of `setupPass` (lines 174-181): update and
yield, then exit once the align tactic reports done.  Returns the trace
and, on exit, the tick at which done was observed. -/
def alignLoop (alignDone : ℕ → Bool) : ℕ → ℕ → List Event × Option ℕ
  | 0, _ => ([], none)
  | fuel + 1, t =>
    let blk : List Event :=
      [.updateAlign t, .setWorld t, .setPasserPoint t, .yieldTactics alignStageTactics]
    if alignDone (t + 1) then (blk, some (t + 1))
    else
      let r := alignLoop alignDone fuel (t + 1)
      (blk ++ r.1, r.2)

/-- The deciding do-while loop of `setupPass` (lines 188-207): update and
yield, then (one tick later) re-read the optimizer incumbent, recompute
the threshold from the elapsed time since `t0`, and exit once the rating
is at least the threshold.  Returns the trace and, on commit, the commit
tick together with the committed `PassWithRating`. -/
def decideLoop (best : ℕ → PassWithRating) (ts : ℕ → ℚ) (T t0 : ℚ) :
    ℕ → ℕ → List Event × Option (ℕ × PassWithRating)
  | 0, _ => ([], none)
  | fuel + 1, t =>
    let blk : List Event :=
      [.updateAlign t, .setWorld t, .setPasserPoint t,
        .yieldTactics alignStageTactics, .readBest (t + 1)]
    let b := best (t + 1)
    if b.rating < minScore (ts (t + 1) - t0) T then
      let r := decideLoop best ts T t0 fuel (t + 1)
      (blk ++ r.1, r.2)
    else (blk, some (t + 1, b))

/-- The execute do-while loop of `getNextTactics` (lines 96-102): re-apply
the committed pass to the passer and receiver tactics and yield, until the
receiver reports done.  The boolean result records whether the loop
finished within the fuel. -/
def executeLoop (receiverDone : ℕ → Bool) (p : Pass) : ℕ → ℕ → List Event × Bool
  | 0, _ => ([], false)
  | fuel + 1, t =>
    let blk : List Event :=
      [.applyPass .passer p, .applyPass .receiver p, .yieldTactics executeStageTactics]
    if receiverDone (t + 1) then (blk, true)
    else
      let r := executeLoop receiverDone p fuel (t + 1)
      (blk ++ r.1, r.2)

/-- `CornerKickPlay::setupPass` (lines 107-215), entered at tick t: the
PassGenerator is constructed with the current world and passer point and
its incumbent is read once (lines 145-153), then the wait loop runs; on
assignment the assigned robot is registered as the passer (line 168), the
align loop runs, and the decide loop runs with the commit-stage start time
taken at its entry tick (line 189).  Returns the trace and the committed
pass, `none` if the fuel ran out before commitment. -/
def setupPass (env : PlayEnv) (fuel t : ℕ) :
    List Event × Option (ℕ × PassWithRating) :=
  let intro : List Event := [.setWorld t, .setPasserPoint t, .readBest t]
  let w := waitLoop env.assigned fuel t
  match w.2 with
  | none => (intro ++ w.1, none)
  | some k =>
    match env.assigned k with
    | none => (intro ++ w.1, none)
    | some rid =>
      let a := alignLoop env.alignDone fuel k
      match a.2 with
      | none => (intro ++ w.1 ++ .registerPasser rid :: a.1, none)
      | some d =>
        let dcd := decideLoop env.best env.ts env.MAX_TIME_TO_COMMIT_TO_PASS
          (env.ts d) fuel d
        (intro ++ w.1 ++ .registerPasser rid :: (a.1 ++ dcd.1), dcd.2)

/-- `CornerKickPlay::getNextTactics` (lines 39-105): run `setupPass`, then
on commitment run the execute loop with the committed pass from the commit
tick onward. -/
def getNextTactics (env : PlayEnv) (fuel t : ℕ) : List Event :=
  let s := setupPass env fuel t
  match s.2 with
  | none => s.1
  | some (tc, b) => s.1 ++ (executeLoop env.receiverDone b.pass fuel tc).1

/-- True of yield events. -/
def isYieldEvent : Event → Bool
  | .yieldTactics _ => true
  | _ => false

/-- True of align-tactic update events. -/
def isUpdateAlignEvent : Event → Bool
  | .updateAlign _ => true
  | _ => false

/-- True of passer-registration events. -/
def isRegisterEvent : Event → Bool
  | .registerPasser _ => true
  | _ => false

/-- True of pass-parameter application events. -/
def isApplyPassEvent : Event → Bool
  | .applyPass _ _ => true
  | _ => false

/-- True of `setWorld` context pushes. -/
def isSetWorldEvent : Event → Bool
  | .setWorld _ => true
  | _ => false

/-- True of `setPasserPoint` context pushes. -/
def isSetPasserPointEvent : Event → Bool
  | .setPasserPoint _ => true
  | _ => false

/-- Walk a trace and pair every `readBest` event with the optimizer world
context at the moment of the read: the tick of the latest preceding
`setWorld`, starting from context `c`. -/
def readContextsW : Option ℕ → List Event → List (ℕ × Option ℕ)
  | _, [] => []
  | _, .setWorld t :: r => readContextsW (some t) r
  | c, .readBest t :: r => (t, c) :: readContextsW c r
  | c, _ :: r => readContextsW c r

/-- Walk a trace and pair every `readBest` event with the optimizer
passer-point context at the moment of the read: the tick of the latest
preceding `setPasserPoint`, starting from context `c`. -/
def readContextsP : Option ℕ → List Event → List (ℕ × Option ℕ)
  | _, [] => []
  | _, .setPasserPoint t :: r => readContextsP (some t) r
  | c, .readBest t :: r => (t, c) :: readContextsP c r
  | c, _ :: r => readContextsP c r

/-- Every read in the trace sees the optimizer context of the very tick on
which the read happens, for both kinds of context push.  This is the
freshness contract of claim C4. -/
def everyReadFresh (tr : List Event) : Prop :=
  (∀ p ∈ readContextsW none tr, p.2 = some p.1) ∧
    (∀ p ∈ readContextsP none tr, p.2 = some p.1)

/-- Whether a decide-loop result committed at or before tick n. -/
def commitsBy : Option (ℕ × PassWithRating) → ℕ → Bool
  | none, _ => false
  | some (k, _), n => decide (k ≤ n)

/-- A concrete world: the opposing team has been awarded the free kick and
the ball sits exactly on the positive attacking corner. -/
noncomputable def enemyFreeKickWorld : World where
  field := { enemyCornerPos := (9 / 2, 3), enemyCornerNeg := (9 / 2, -3) }
  ballPosition := (9 / 2, 3)
  gameState := { isPlaying := false, isReadyState := true,
                 isOurFreeKick := false, isTheirFreeKick := true }
  enemyTeamHasPossession := false
  friendlyPassInProgress := false

/-- A concrete world whose game state is neither playing nor ready, with a
friendly pass in progress. -/
noncomputable def haltedWorld : World where
  field := { enemyCornerPos := (9 / 2, 3), enemyCornerNeg := (9 / 2, -3) }
  ballPosition := (0, 0)
  gameState := { isPlaying := false, isReadyState := false,
                 isOurFreeKick := false, isTheirFreeKick := false }
  enemyTeamHasPossession := false
  friendlyPassInProgress := true

/-- A concrete world with the ball one metre from the field centre. -/
noncomputable def ballAtUnitWorld : World where
  field := { enemyCornerPos := (9 / 2, 3), enemyCornerNeg := (9 / 2, -3) }
  ballPosition := (1, 0)
  gameState := { isPlaying := true, isReadyState := false,
                 isOurFreeKick := true, isTheirFreeKick := false }
  enemyTeamHasPossession := false
  friendlyPassInProgress := false

/-- A concrete input stream on which no robot is ever assigned to the
align tactic. -/
def idleEnv : PlayEnv where
  assigned := fun _ => none
  alignDone := fun _ => false
  best := fun _ => { pass := 0, rating := 0 }
  ts := fun _ => 0
  receiverDone := fun _ => false
  MAX_TIME_TO_COMMIT_TO_PASS := 1

/-- A concrete input stream: robot 7 is assigned at tick 1, alignment
completes at tick 2, the optimizer incumbent is always pass 42 with
rating 0, timestamps advance one second per tick, and the commit duration
is 2 seconds.  The decide stage is entered at tick 2 and commits at
tick 4, when the elapsed time reaches the commit duration. -/
def demoEnv : PlayEnv where
  assigned := fun j => if j = 0 then none else some 7
  alignDone := fun j => decide (2 ≤ j)
  best := fun _ => { pass := 42, rating := 0 }
  ts := fun j => j
  receiverDone := fun _ => true
  MAX_TIME_TO_COMMIT_TO_PASS := 2

/-! ## Helper lemmas -/

/-- Once the elapsed time reaches the configured maximum, the computed
threshold is exactly zero. -/
theorem minScore_eq_zero_of_le {T e : ℚ} (hT : 0 < T) (h : T ≤ e) :
    minScore e T = 0 := by
  unfold minScore
  rw [min_eq_right ((one_le_div hT).mpr h)]
  norm_num

/-! ## Claim C2 -/

/-- Claim C2: for elapsed time t at least 0 and commit duration T positive,
the threshold computed each Decide iteration equals max(0, 1 - t/T); it is
1 at t = 0, never exceeds 1, is monotonically non-increasing in t, and is
exactly 0 for all t at or past T. -/
theorem minScore_decay_policy :
    ∀ T : ℚ, 0 < T →
      (∀ t : ℚ, 0 ≤ t → minScore t T = max 0 (1 - t / T)) ∧
      minScore 0 T = 1 ∧
      (∀ t : ℚ, 0 ≤ t → minScore t T ≤ 1) ∧
      (∀ t1 t2 : ℚ, 0 ≤ t1 → t1 ≤ t2 → minScore t2 T ≤ minScore t1 T) ∧
      (∀ t : ℚ, T ≤ t → minScore t T = 0) := by
  intro T hT
  refine ⟨?_, ?_, ?_, ?_, ?_⟩
  · intro t _
    unfold minScore
    rcases le_total (t / T) 1 with h | h
    · rw [min_eq_left h, max_eq_right (by linarith)]
    · rw [min_eq_right h, max_eq_left (by linarith)]
      norm_num
  · unfold minScore
    norm_num
  · intro t ht
    unfold minScore
    apply sub_le_self
    exact le_min (div_nonneg ht hT.le) zero_le_one
  · intro t1 t2 _ h12
    unfold minScore
    have hdiv : t1 / T ≤ t2 / T := by gcongr
    exact sub_le_sub_left (min_le_min hdiv le_rfl) 1
  · intro t ht
    exact minScore_eq_zero_of_le hT ht

/-- Witness for C2 at T = 2: threshold is 1 at t = 0 and 0 at t = 3. -/
theorem minScore_decay_policy_witness :
    minScore 0 2 = 1 ∧ minScore 3 2 = 0 := by
  have h := minScore_decay_policy 2 (by norm_num)
  exact ⟨h.2.1, h.2.2.2.2 3 (by norm_num)⟩

/-! ## Claim C1 -/

/-- Claim C1: once the elapsed time at a Decide iteration reaches T, the
computed threshold is 0, so any rating at least 0 satisfies the exit
condition on that iteration; consequently, for ratings in [0,1] the decide
loop commits at or before the first tick whose elapsed time reaches T,
whatever the rating sequence does. -/
theorem decideLoop_commits_within_T :
    (∀ T e r : ℚ, 0 < T → T ≤ e → 0 ≤ r → ¬(r < minScore e T)) ∧
    ∀ (best : ℕ → PassWithRating) (ts : ℕ → ℚ) (T t0 : ℚ) (fuel t j : ℕ),
      0 < T → (∀ k, 0 ≤ (best k).rating) → j < fuel →
      T ≤ ts (t + j + 1) - t0 →
      commitsBy (decideLoop best ts T t0 fuel t).2 (t + j + 1) = true := by
  have exit_now : ∀ T e r : ℚ, 0 < T → T ≤ e → 0 ≤ r → ¬(r < minScore e T) := by
    intro T e r hT he hr
    rw [minScore_eq_zero_of_le hT he]
    exact not_lt.mpr hr
  refine ⟨exit_now, ?_⟩
  intro best ts T t0 fuel
  induction fuel with
  | zero => intro t j _ _ hj _; omega
  | succ n ih =>
    intro t j hT hb hj hts
    by_cases hlt : (best (t + 1)).rating < minScore (ts (t + 1) - t0) T
    · cases j with
      | zero =>
        exact absurd hlt (exit_now T _ _ hT (by simpa using hts) (hb (t + 1)))
      | succ j' =>
        have h1 : commitsBy (decideLoop best ts T t0 n (t + 1)).2 (t + 1 + j' + 1) = true := by
          apply ih (t + 1) j' hT hb (by omega)
          have : t + 1 + j' + 1 = t + (j' + 1) + 1 := by omega
          rw [this]
          exact hts
        have h2 : (decideLoop best ts T t0 (n + 1) t).2 = (decideLoop best ts T t0 n (t + 1)).2 := by
          simp only [decideLoop, if_pos hlt]
        rw [h2]
        have : t + 1 + j' + 1 = t + (j' + 1) + 1 := by omega
        rw [← this]
        exact h1
    · have h2 : (decideLoop best ts T t0 (n + 1) t).2 = some (t + 1, best (t + 1)) := by
        simp only [decideLoop, if_neg hlt]
      rw [h2]
      simp only [commitsBy, decide_eq_true_eq]
      omega

/-- Witness for C1: with constant rating 0, timestamps frozen at 2 and
T = 2, the decide loop entered at tick 0 commits by tick 2. -/
theorem decideLoop_commits_within_T_witness :
    commitsBy (decideLoop (fun _ => { pass := 0, rating := 0 })
      (fun _ => (2 : ℚ)) 2 0 5 0).2 (0 + 1 + 1) = true :=
  decideLoop_commits_within_T.2 (fun _ => { pass := 0, rating := 0 })
    (fun _ => (2 : ℚ)) 2 0 5 0 1 (by norm_num) (fun _ => le_rfl) (by omega)
    (by norm_num)

/-- Every set yielded by the wait loop is the align-stage set. -/
theorem waitLoop_yield_mem (a : ℕ → Option ℕ) :
    ∀ fuel t l, Event.yieldTactics l ∈ (waitLoop a fuel t).1 → l = alignStageTactics := by
  intro fuel
  induction fuel with
  | zero => intro t l h; simp [waitLoop] at h
  | succ n ih =>
    intro t l h
    rcases hA : a t with _ | rid
    · rw [waitLoop, hA] at h
      simp at h
      rcases h with h | h
      · exact h
      · exact ih (t + 1) l h
    · rw [waitLoop, hA] at h
      simp at h

/-- The wait loop emits no registration and no pass application. -/
theorem waitLoop_kinds (a : ℕ → Option ℕ) :
    ∀ fuel t, ∀ e ∈ (waitLoop a fuel t).1,
      isRegisterEvent e = false ∧ isApplyPassEvent e = false := by
  intro fuel
  induction fuel with
  | zero => intro t e h; simp [waitLoop] at h
  | succ n ih =>
    intro t e h
    rcases hA : a t with _ | rid
    · rw [waitLoop, hA] at h
      simp at h
      rcases h with h | h | h | h | h
      all_goals first
        | (subst h; exact ⟨rfl, rfl⟩)
        | exact ih (t + 1) e h
    · rw [waitLoop, hA] at h
      simp at h

/-- The wait loop calls updateAlignToBallTactic exactly once per yield. -/
theorem waitLoop_update_per_yield (a : ℕ → Option ℕ) :
    ∀ fuel t, ((waitLoop a fuel t).1.countP isUpdateAlignEvent) =
      ((waitLoop a fuel t).1.countP isYieldEvent) := by
  intro fuel
  induction fuel with
  | zero => intro t; simp [waitLoop]
  | succ n ih =>
    intro t
    rcases hA : a t with _ | rid
    · rw [waitLoop, hA]
      simp [List.countP_cons, isUpdateAlignEvent, isYieldEvent, ih (t + 1)]
    · rw [waitLoop, hA]
      simp

/-- With no robot ever assigned, the wait loop never exits and yields once
per tick of fuel. -/
theorem waitLoop_none (a : ℕ → Option ℕ) (hnone : ∀ k, a k = none) :
    ∀ fuel t, (waitLoop a fuel t).2 = none ∧
      (waitLoop a fuel t).1.countP isYieldEvent = fuel := by
  intro fuel
  induction fuel with
  | zero => intro t; simp [waitLoop]
  | succ n ih =>
    intro t
    rw [waitLoop, hnone t]
    refine ⟨(ih (t + 1)).1, ?_⟩
    simp [List.countP_cons, isYieldEvent, (ih (t + 1)).2]

/-- If the wait loop exits at tick k, then k is at or after entry, a robot
is assigned at k, and no robot was assigned at any earlier tick of the
loop. -/
theorem waitLoop_exit (a : ℕ → Option ℕ) :
    ∀ fuel t k, (waitLoop a fuel t).2 = some k →
      t ≤ k ∧ (a k).isSome = true ∧ ∀ j, t ≤ j → j < k → a j = none := by
  intro fuel
  induction fuel with
  | zero => intro t k h; simp [waitLoop] at h
  | succ n ih =>
    intro t k h
    rcases hA : a t with _ | rid
    · rw [waitLoop, hA] at h
      simp at h
      obtain ⟨h1, h2, h3⟩ := ih (t + 1) k h
      refine ⟨by omega, h2, ?_⟩
      intro j hj1 hj2
      rcases Nat.eq_or_lt_of_le hj1 with hj | hj
      · rw [← hj]; exact hA
      · exact h3 j (by omega) hj2
    · rw [waitLoop, hA] at h
      simp at h
      subst h
      exact ⟨le_rfl, by simp [hA], fun j hj1 hj2 => by omega⟩

/-- Every set yielded by the align loop is the align-stage set. -/
theorem alignLoop_yield_mem (d : ℕ → Bool) :
    ∀ fuel t l, Event.yieldTactics l ∈ (alignLoop d fuel t).1 → l = alignStageTactics := by
  intro fuel
  induction fuel with
  | zero => intro t l h; simp [alignLoop] at h
  | succ n ih =>
    intro t l h
    by_cases hd : d (t + 1)
    · rw [alignLoop, if_pos hd] at h
      simp at h
      exact h
    · rw [alignLoop, if_neg hd] at h
      simp at h
      rcases h with h | h
      · exact h
      · exact ih (t + 1) l h

/-- The align loop emits no registration and no pass application. -/
theorem alignLoop_kinds (d : ℕ → Bool) :
    ∀ fuel t, ∀ e ∈ (alignLoop d fuel t).1,
      isRegisterEvent e = false ∧ isApplyPassEvent e = false := by
  intro fuel
  induction fuel with
  | zero => intro t e h; simp [alignLoop] at h
  | succ n ih =>
    intro t e h
    by_cases hd : d (t + 1)
    · rw [alignLoop, if_pos hd] at h
      simp at h
      rcases h with h | h | h | h
      all_goals subst h; exact ⟨rfl, rfl⟩
    · rw [alignLoop, if_neg hd] at h
      simp at h
      rcases h with h | h | h | h | h
      all_goals first
        | (subst h; exact ⟨rfl, rfl⟩)
        | exact ih (t + 1) e h

/-- The align loop calls updateAlignToBallTactic exactly once per yield. -/
theorem alignLoop_update_per_yield (d : ℕ → Bool) :
    ∀ fuel t, ((alignLoop d fuel t).1.countP isUpdateAlignEvent) =
      ((alignLoop d fuel t).1.countP isYieldEvent) := by
  intro fuel
  induction fuel with
  | zero => intro t; simp [alignLoop]
  | succ n ih =>
    intro t
    by_cases hd : d (t + 1)
    · rw [alignLoop, if_pos hd]
      simp [List.countP_cons, isUpdateAlignEvent, isYieldEvent]
    · rw [alignLoop, if_neg hd]
      simp [List.countP_cons, isUpdateAlignEvent, isYieldEvent, ih (t + 1)]

/-- Every set yielded by the decide loop is the align-stage set. -/
theorem decideLoop_yield_mem (best : ℕ → PassWithRating) (ts : ℕ → ℚ) (T t0 : ℚ) :
    ∀ fuel t l, Event.yieldTactics l ∈ (decideLoop best ts T t0 fuel t).1 →
      l = alignStageTactics := by
  intro fuel
  induction fuel with
  | zero => intro t l h; simp [decideLoop] at h
  | succ n ih =>
    intro t l h
    by_cases hb : (best (t + 1)).rating < minScore (ts (t + 1) - t0) T
    · rw [decideLoop, if_pos hb] at h
      simp at h
      rcases h with h | h
      · exact h
      · exact ih (t + 1) l h
    · rw [decideLoop, if_neg hb] at h
      simp at h
      exact h

/-- The decide loop emits no registration and no pass application. -/
theorem decideLoop_kinds (best : ℕ → PassWithRating) (ts : ℕ → ℚ) (T t0 : ℚ) :
    ∀ fuel t, ∀ e ∈ (decideLoop best ts T t0 fuel t).1,
      isRegisterEvent e = false ∧ isApplyPassEvent e = false := by
  intro fuel
  induction fuel with
  | zero => intro t e h; simp [decideLoop] at h
  | succ n ih =>
    intro t e h
    by_cases hb : (best (t + 1)).rating < minScore (ts (t + 1) - t0) T
    · rw [decideLoop, if_pos hb] at h
      simp at h
      rcases h with h | h | h | h | h | h
      all_goals first
        | (subst h; exact ⟨rfl, rfl⟩)
        | exact ih (t + 1) e h
    · rw [decideLoop, if_neg hb] at h
      simp at h
      rcases h with h | h | h | h | h
      all_goals subst h; exact ⟨rfl, rfl⟩

/-- The decide loop calls updateAlignToBallTactic exactly once per yield. -/
theorem decideLoop_update_per_yield (best : ℕ → PassWithRating) (ts : ℕ → ℚ) (T t0 : ℚ) :
    ∀ fuel t, ((decideLoop best ts T t0 fuel t).1.countP isUpdateAlignEvent) =
      ((decideLoop best ts T t0 fuel t).1.countP isYieldEvent) := by
  intro fuel
  induction fuel with
  | zero => intro t; simp [decideLoop]
  | succ n ih =>
    intro t
    by_cases hb : (best (t + 1)).rating < minScore (ts (t + 1) - t0) T
    · rw [decideLoop, if_pos hb]
      simp [List.countP_cons, isUpdateAlignEvent, isYieldEvent, ih (t + 1)]
    · rw [decideLoop, if_neg hb]
      simp [List.countP_cons, isUpdateAlignEvent, isYieldEvent]

/-- The decide loop pushes the world context exactly once per yield. -/
theorem decideLoop_setWorld_per_yield (best : ℕ → PassWithRating) (ts : ℕ → ℚ) (T t0 : ℚ) :
    ∀ fuel t, ((decideLoop best ts T t0 fuel t).1.countP isSetWorldEvent) =
      ((decideLoop best ts T t0 fuel t).1.countP isYieldEvent) := by
  intro fuel
  induction fuel with
  | zero => intro t; simp [decideLoop]
  | succ n ih =>
    intro t
    by_cases hb : (best (t + 1)).rating < minScore (ts (t + 1) - t0) T
    · rw [decideLoop, if_pos hb]
      simp [List.countP_cons, isSetWorldEvent, isYieldEvent, ih (t + 1)]
    · rw [decideLoop, if_neg hb]
      simp [List.countP_cons, isSetWorldEvent, isYieldEvent]

/-- Every read the decide loop performs sees the setWorld context of the
previous tick. -/
theorem decideLoop_readW (best : ℕ → PassWithRating) (ts : ℕ → ℚ) (T t0 : ℚ) :
    ∀ fuel t c p, p ∈ readContextsW c (decideLoop best ts T t0 fuel t).1 →
      p.2 = some (p.1 - 1) := by
  intro fuel
  induction fuel with
  | zero => intro t c p h; simp [decideLoop, readContextsW] at h
  | succ n ih =>
    intro t c p h
    by_cases hb : (best (t + 1)).rating < minScore (ts (t + 1) - t0) T
    · rw [decideLoop, if_pos hb] at h
      simp [readContextsW] at h
      rcases h with h | h
      · subst h; simp
      · exact ih (t + 1) (some t) p h
    · rw [decideLoop, if_neg hb] at h
      simp [readContextsW] at h
      subst h; simp

/-- Every read the decide loop performs sees the setPasserPoint context of
the previous tick. -/
theorem decideLoop_readP (best : ℕ → PassWithRating) (ts : ℕ → ℚ) (T t0 : ℚ) :
    ∀ fuel t c p, p ∈ readContextsP c (decideLoop best ts T t0 fuel t).1 →
      p.2 = some (p.1 - 1) := by
  intro fuel
  induction fuel with
  | zero => intro t c p h; simp [decideLoop, readContextsP] at h
  | succ n ih =>
    intro t c p h
    by_cases hb : (best (t + 1)).rating < minScore (ts (t + 1) - t0) T
    · rw [decideLoop, if_pos hb] at h
      simp [readContextsP] at h
      rcases h with h | h
      · subst h; simp
      · exact ih (t + 1) (some t) p h
    · rw [decideLoop, if_neg hb] at h
      simp [readContextsP] at h
      subst h; simp

/-- Every pass parameter the execute loop applies is the committed pass. -/
theorem executeLoop_apply (rd : ℕ → Bool) (p : Pass) :
    ∀ fuel t who q, Event.applyPass who q ∈ (executeLoop rd p fuel t).1 → q = p := by
  intro fuel
  induction fuel with
  | zero => intro t who q h; simp [executeLoop] at h
  | succ n ih =>
    intro t who q h
    by_cases hd : rd (t + 1)
    · rw [executeLoop, if_pos hd] at h
      simp at h
      rcases h with h | h
      all_goals exact h.2
    · rw [executeLoop, if_neg hd] at h
      simp at h
      rcases h with h | h | h
      · exact h.2
      · exact h.2
      · exact ih (t + 1) who q h

/-- Every set yielded by the execute loop is the execute-stage set. -/
theorem executeLoop_yield_mem (rd : ℕ → Bool) (p : Pass) :
    ∀ fuel t l, Event.yieldTactics l ∈ (executeLoop rd p fuel t).1 →
      l = executeStageTactics := by
  intro fuel
  induction fuel with
  | zero => intro t l h; simp [executeLoop] at h
  | succ n ih =>
    intro t l h
    by_cases hd : rd (t + 1)
    · rw [executeLoop, if_pos hd] at h
      simp at h
      exact h
    · rw [executeLoop, if_neg hd] at h
      simp at h
      rcases h with h | h
      · exact h
      · exact ih (t + 1) l h

/-- The execute loop never registers a passer. -/
theorem executeLoop_no_register (rd : ℕ → Bool) (p : Pass) :
    ∀ fuel t e, e ∈ (executeLoop rd p fuel t).1 → isRegisterEvent e = false := by
  intro fuel
  induction fuel with
  | zero => intro t e h; simp [executeLoop] at h
  | succ n ih =>
    intro t e h
    by_cases hd : rd (t + 1)
    · rw [executeLoop, if_pos hd] at h
      simp at h
      rcases h with h | h | h
      all_goals subst h; rfl
    · rw [executeLoop, if_neg hd] at h
      simp at h
      rcases h with h | h | h | h
      all_goals first
        | (subst h; rfl)
        | exact ih (t + 1) e h


/-- Every set yielded during setupPass (waiting, aligning and deciding) is
the align-stage set. -/
theorem setupPass_yield_mem (env : PlayEnv) (fuel t : ℕ) :
    ∀ l, Event.yieldTactics l ∈ (setupPass env fuel t).1 → l = alignStageTactics := by
  intro l h
  simp only [setupPass] at h
  split at h
  · simp at h
    exact waitLoop_yield_mem env.assigned fuel t l h
  · split at h
    · simp at h
      exact waitLoop_yield_mem env.assigned fuel t l h
    · split at h
      · simp at h
        rcases h with h | h
        · exact waitLoop_yield_mem env.assigned fuel t l h
        · exact alignLoop_yield_mem env.alignDone fuel _ l h
      · simp at h
        rcases h with h | h | h
        · exact waitLoop_yield_mem env.assigned fuel t l h
        · exact alignLoop_yield_mem env.alignDone fuel _ l h
        · exact decideLoop_yield_mem env.best env.ts env.MAX_TIME_TO_COMMIT_TO_PASS _ fuel _ l h

/-- setupPass applies no pass parameters: pass application happens only in
the execute stage. -/
theorem setupPass_no_apply (env : PlayEnv) (fuel t : ℕ) :
    ∀ who q, Event.applyPass who q ∉ (setupPass env fuel t).1 := by
  intro who q h
  have contra : ∀ tr : List Event, Event.applyPass who q ∈ tr →
      (∀ e ∈ tr, isApplyPassEvent e = false) → False := by
    intro tr hm hall
    have := hall _ hm
    simp [isApplyPassEvent] at this
  simp only [setupPass] at h
  split at h
  · simp at h
    exact contra _ h (fun e he => (waitLoop_kinds env.assigned fuel t e he).2)
  · split at h
    · simp at h
      exact contra _ h (fun e he => (waitLoop_kinds env.assigned fuel t e he).2)
    · split at h
      · simp at h
        rcases h with h | h
        · exact contra _ h (fun e he => (waitLoop_kinds env.assigned fuel t e he).2)
        · exact contra _ h (fun e he => (alignLoop_kinds env.alignDone fuel _ e he).2)
      · simp at h
        rcases h with h | h | h
        · exact contra _ h (fun e he => (waitLoop_kinds env.assigned fuel t e he).2)
        · exact contra _ h (fun e he => (alignLoop_kinds env.alignDone fuel _ e he).2)
        · exact contra _ h (fun e he =>
            (decideLoop_kinds env.best env.ts env.MAX_TIME_TO_COMMIT_TO_PASS _ fuel _ e he).2)

/-- Once the wait loop exits at tick k with robot rid assigned, the whole
setupPass trace contains exactly one registration event, carrying rid. -/
theorem setupPass_register_filter (env : PlayEnv) (fuel t k rid : ℕ)
    (hw : (waitLoop env.assigned fuel t).2 = some k)
    (ha : env.assigned k = some rid) :
    (setupPass env fuel t).1.filter isRegisterEvent = [Event.registerPasser rid] := by
  have hwf : (waitLoop env.assigned fuel t).1.filter isRegisterEvent = [] :=
    List.filter_eq_nil_iff.mpr fun e he => by
      simp [(waitLoop_kinds env.assigned fuel t e he).1]
  have haf : (alignLoop env.alignDone fuel k).1.filter isRegisterEvent = [] :=
    List.filter_eq_nil_iff.mpr fun e he => by
      simp [(alignLoop_kinds env.alignDone fuel k e he).1]
  have hdf : ∀ d, (decideLoop env.best env.ts env.MAX_TIME_TO_COMMIT_TO_PASS
      (env.ts d) fuel d).1.filter isRegisterEvent = [] := fun d =>
    List.filter_eq_nil_iff.mpr fun e he => by
      simp [(decideLoop_kinds env.best env.ts env.MAX_TIME_TO_COMMIT_TO_PASS
        (env.ts d) fuel d e he).1]
  simp only [setupPass]
  rw [hw]
  simp only [ha]
  split
  · simp [List.filter_append, hwf, haf, isRegisterEvent]
  · simp [List.filter_append, hwf, haf, hdf, isRegisterEvent]

/-! ## Claim C10 -/

/-- Claim C10: the passer robot id is registered with the pass generator
exactly once per Play execution — with the id of the robot assigned to the
align tactic at the first tick on which any robot is assigned — and the
registration event never recurs in the trace afterwards. -/
theorem passer_registered_once_first_assigned :
    ∀ (env : PlayEnv) (fuel t k rid : ℕ),
      (waitLoop env.assigned fuel t).2 = some k →
      env.assigned k = some rid →
      (setupPass env fuel t).1.filter isRegisterEvent = [Event.registerPasser rid] ∧
      ∀ j, t ≤ j → j < k → env.assigned j = none := by
  intro env fuel t k rid hw ha
  exact ⟨setupPass_register_filter env fuel t k rid hw ha,
    (waitLoop_exit env.assigned fuel t k hw).2.2⟩

/-- Witness for C10 on the demo stream: robot 7, first assigned at tick 1,
is registered exactly once. -/
theorem passer_registered_once_first_assigned_witness :
    (setupPass demoEnv 3 0).1.filter isRegisterEvent = [Event.registerPasser 7] :=
  (passer_registered_once_first_assigned demoEnv 3 0 1 7 rfl rfl).1

/-! ## Claim C8 -/

/-- Claim C8: with no robot ever assigned to the align tactic, setupPass
never commits, never registers a passer, keeps yielding the align-stage
tactic set once per tick of fuel, and never leaves the waiting loop. -/
theorem align_wait_loops_forever :
    ∀ (env : PlayEnv) (fuel t : ℕ), (∀ k, env.assigned k = none) →
      (setupPass env fuel t).2 = none ∧
      (∀ rid, Event.registerPasser rid ∉ (setupPass env fuel t).1) ∧
      (∀ l, Event.yieldTactics l ∈ (setupPass env fuel t).1 → l = alignStageTactics) ∧
      (setupPass env fuel t).1.countP isYieldEvent = fuel := by
  intro env fuel t hnone
  obtain ⟨hres, hcount⟩ := waitLoop_none env.assigned hnone fuel t
  have hshape : setupPass env fuel t =
      (Event.setWorld t :: Event.setPasserPoint t :: Event.readBest t ::
        (waitLoop env.assigned fuel t).1, none) := by
    simp only [setupPass, hres]
    rfl
  refine ⟨by rw [hshape], ?_, fun l h => setupPass_yield_mem env fuel t l h, ?_⟩
  · intro rid hmem
    rw [hshape] at hmem
    simp at hmem
    have := (waitLoop_kinds env.assigned fuel t _ hmem).1
    simp [isRegisterEvent] at this
  · rw [hshape]
    simp [List.countP_cons, isYieldEvent, hcount]

/-- Witness for C8 on the idle stream with 3 ticks of fuel: no commitment
and exactly 3 yields. -/
theorem align_wait_loops_forever_witness :
    (setupPass idleEnv 3 0).2 = none ∧
      (setupPass idleEnv 3 0).1.countP isYieldEvent = 3 := by
  have h := align_wait_loops_forever idleEnv 3 0 (fun _ => rfl)
  exact ⟨h.1, h.2.2.2⟩

/-! ## Claim C6 -/

/-- Claim C6: every tactic set yielded during the waiting, aligning and
deciding stages is exactly the six-element align-stage set (goalkeeper,
align-to-ball, the two cherry-pickers and the two baits); every set
yielded during the execute stage is exactly the five-element execute-stage
set (goalkeeper, passer, receiver and the two baits); and each of the two
sets names pairwise-distinct tactic instances, so no yielded set contains
two entries intending to control the same robot. -/
theorem yielded_tactic_sets :
    (∀ (env : PlayEnv) (fuel t : ℕ) (l : List TacticId),
      Event.yieldTactics l ∈ (setupPass env fuel t).1 → l = alignStageTactics) ∧
    (∀ (rd : ℕ → Bool) (p : Pass) (fuel t : ℕ) (l : List TacticId),
      Event.yieldTactics l ∈ (executeLoop rd p fuel t).1 → l = executeStageTactics) ∧
    alignStageTactics.Nodup ∧ executeStageTactics.Nodup := by
  refine ⟨fun env fuel t l h => setupPass_yield_mem env fuel t l h,
    fun rd p fuel t l h => executeLoop_yield_mem rd p fuel t l h,
    by decide, by decide⟩

/-- Witness for C6: the set yielded on the first waiting tick of the idle
stream is the align-stage set. -/
theorem yielded_tactic_sets_witness :
    [TacticId.goalie, TacticId.alignToBall, TacticId.cherryPickPosY,
      TacticId.cherryPickNegY, TacticId.baitMove1, TacticId.baitMove2] =
      alignStageTactics :=
  yielded_tactic_sets.1 idleEnv 1 0 _ (by decide)

/-! ## Claim C5 -/

/-- Claim C5: once setupPass commits to a pass, the pass value applied via
updateControlParams to the passer and to the receiver on every subsequent
execute-stage tick is that exact committed pass; it is never replaced or
modified after commitment. -/
theorem committed_pass_immutable :
    ∀ (env : PlayEnv) (fuel t tc : ℕ) (b : PassWithRating),
      (setupPass env fuel t).2 = some (tc, b) →
      ∀ (who : TacticId) (q : Pass),
        Event.applyPass who q ∈ getNextTactics env fuel t → q = b.pass := by
  intro env fuel t tc b hc who q h
  simp only [getNextTactics] at h
  rw [hc] at h
  simp at h
  rcases h with h | h
  · exact absurd h (setupPass_no_apply env fuel t who q)
  · exact executeLoop_apply env.receiverDone b.pass fuel tc who q h

/-- Witness for C5 on the demo stream: the pass applied to the passer
tactic is the committed pass 42. -/
theorem committed_pass_immutable_witness :
    (42 : Pass) = (PassWithRating.mk 42 0).pass :=
  committed_pass_immutable demoEnv 6 0 4 (PassWithRating.mk 42 0)
    (by norm_num [setupPass, waitLoop, alignLoop, decideLoop, demoEnv, minScore])
    TacticId.passer 42
    (by norm_num [getNextTactics, setupPass, waitLoop, alignLoop, decideLoop,
      executeLoop, demoEnv, minScore])

/-- The decide loop pushes the passer point exactly once per yield. -/
theorem decideLoop_setPasserPoint_per_yield (best : ℕ → PassWithRating) (ts : ℕ → ℚ) (T t0 : ℚ) :
    ∀ fuel t, ((decideLoop best ts T t0 fuel t).1.countP isSetPasserPointEvent) =
      ((decideLoop best ts T t0 fuel t).1.countP isYieldEvent) := by
  intro fuel
  induction fuel with
  | zero => intro t; simp [decideLoop]
  | succ n ih =>
    intro t
    by_cases hb : (best (t + 1)).rating < minScore (ts (t + 1) - t0) T
    · rw [decideLoop, if_pos hb]
      simp [List.countP_cons, isSetPasserPointEvent, isYieldEvent, ih (t + 1)]
    · rw [decideLoop, if_neg hb]
      simp [List.countP_cons, isSetPasserPointEvent, isYieldEvent]

/-! ## Claim C4 -/

/-- Claim C4 counterexample: on the demo stream the decide-stage read at
tick 3 sees the optimizer world context pushed at tick 2; the Play has not
called setWorld with tick 3's world before that read, so the per-tick
freshness contract fails on this run. -/
theorem decide_read_stale_context :
    (3, some 2) ∈ readContextsW none (setupPass demoEnv 6 0).1 ∧
      ¬ everyReadFresh (setupPass demoEnv 6 0).1 := by
  have hmem : (3, some 2) ∈ readContextsW none (setupPass demoEnv 6 0).1 := by
    norm_num [setupPass, waitLoop, alignLoop, decideLoop, demoEnv, minScore,
      readContextsW]
  refine ⟨hmem, fun h => ?_⟩
  have := h.1 (3, some 2) hmem
  simp at this

/-- Claim C4 (amended): the decide loop calls setWorld and setPasserPoint
exactly once per yielded tick, but the read of getBestPassSoFar on a given
tick happens before that tick's context pushes: every decide-stage read at
tick k sees the context pushed with the previous resumption's world,
tick k - 1. -/
theorem decide_reads_previous_tick_context :
    ∀ (best : ℕ → PassWithRating) (ts : ℕ → ℚ) (T t0 : ℚ) (fuel t : ℕ)
      (c : Option ℕ) (p : ℕ × Option ℕ),
      (p ∈ readContextsW c (decideLoop best ts T t0 fuel t).1 → p.2 = some (p.1 - 1)) ∧
      (p ∈ readContextsP c (decideLoop best ts T t0 fuel t).1 → p.2 = some (p.1 - 1)) ∧
      (decideLoop best ts T t0 fuel t).1.countP isSetWorldEvent =
        (decideLoop best ts T t0 fuel t).1.countP isYieldEvent ∧
      (decideLoop best ts T t0 fuel t).1.countP isSetPasserPointEvent =
        (decideLoop best ts T t0 fuel t).1.countP isYieldEvent := by
  intro best ts T t0 fuel t c p
  exact ⟨decideLoop_readW best ts T t0 fuel t c p,
    decideLoop_readP best ts T t0 fuel t c p,
    decideLoop_setWorld_per_yield best ts T t0 fuel t,
    decideLoop_setPasserPoint_per_yield best ts T t0 fuel t⟩

/-- Witness for the amended C4: on a one-iteration decide loop the single
read, at tick 1, sees the context pushed at tick 0. -/
theorem decide_reads_previous_tick_context_witness :
    some 0 = some ((1 : ℕ) - 1) :=
  (decide_reads_previous_tick_context (fun _ => { pass := 0, rating := 1 })
    (fun _ => 0) 1 0 1 0 none (1, some 0)).1
    (by norm_num [decideLoop, minScore, readContextsW])

/-! ## Claim C7 -/

/-- Claim C7: invariantHolds is true exactly when the game is playing or
ready and, in addition, the enemy team lacks possession or a friendly pass
is in progress; in particular it is false whenever the game state is
neither playing nor ready, regardless of possession. -/
theorem invariantHolds_iff :
    (∀ w : World, invariantHolds w = true ↔
      ((w.gameState.isPlaying = true ∨ w.gameState.isReadyState = true) ∧
        (w.enemyTeamHasPossession = false ∨ w.friendlyPassInProgress = true))) ∧
    ∀ w : World, w.gameState.isPlaying = false → w.gameState.isReadyState = false →
      invariantHolds w = false := by
  constructor
  · intro w
    cases hp : w.gameState.isPlaying <;> cases hr : w.gameState.isReadyState <;>
      cases he : w.enemyTeamHasPossession <;> cases hf : w.friendlyPassInProgress <;>
        simp [invariantHolds, hp, hr, he, hf]
  · intro w h1 h2
    simp [invariantHolds, h1, h2]

/-- Witness for C7: in the halted world the invariant is false even though
a friendly pass is in progress. -/
theorem invariantHolds_iff_witness : invariantHolds haltedWorld = false :=
  invariantHolds_iff.2 haltedWorld rfl rfl

/-! ## Claim C3 -/

/-- Claim C3 counterexample: in a world where the opposing team holds the
awarded free kick and the ball lies exactly on an attacking corner,
isApplicable is false — the code requires the friendly team's free kick,
not the opposing team's. -/
theorem isApplicable_enemy_free_kick_false :
    enemyFreeKickWorld.gameState.isTheirFreeKick = true ∧
      vlength (vsub enemyFreeKickWorld.field.enemyCornerPos
        enemyFreeKickWorld.ballPosition) ≤ BALL_IN_CORNER_RADIUS ∧
      ¬ isApplicable enemyFreeKickWorld := by
  refine ⟨rfl, ?_, ?_⟩
  · have hz : vsub enemyFreeKickWorld.field.enemyCornerPos
        enemyFreeKickWorld.ballPosition = ((0 : ℝ), (0 : ℝ)) := by
      simp [enemyFreeKickWorld, vsub]
    rw [hz]
    norm_num [vlength, Real.sqrt_zero, BALL_IN_CORNER_RADIUS]
  · rintro ⟨h1, -⟩
    simp [enemyFreeKickWorld] at h1

/-- Claim C3 (amended): isApplicable holds exactly when the friendly team
has the awarded free kick and the ball is within the corner radius of at
least one of the two attacking corners. -/
theorem isApplicable_iff_our_free_kick (w : World) :
    isApplicable w ↔
      (w.gameState.isOurFreeKick = true ∧
        (vlength (vsub w.field.enemyCornerPos w.ballPosition) ≤ BALL_IN_CORNER_RADIUS ∨
          vlength (vsub w.field.enemyCornerNeg w.ballPosition) ≤ BALL_IN_CORNER_RADIUS)) := by
  unfold isApplicable
  exact and_congr_right fun _ => min_le_iff

/-! ## Claim C9 -/

/-- A nonzero vector has positive squared length. -/
theorem sq_add_sq_pos {v : Point} (h : v ≠ ((0 : ℝ), (0 : ℝ))) :
    0 < v.1 ^ 2 + v.2 ^ 2 := by
  rcases eq_or_ne v.1 0 with h1 | h1
  · rcases eq_or_ne v.2 0 with h2 | h2
    · exact absurd (Prod.ext_iff.mpr ⟨h1, h2⟩) h
    · have hp : 0 < v.2 ^ 2 := (sq_nonneg v.2).lt_of_ne (Ne.symm (pow_ne_zero 2 h2))
      nlinarith [sq_nonneg v.1]
  · have hp : 0 < v.1 ^ 2 := (sq_nonneg v.1).lt_of_ne (Ne.symm (pow_ne_zero 2 h1))
    nlinarith [sq_nonneg v.2]

/-- A nonzero vector has positive length. -/
theorem vlength_pos {v : Point} (h : v ≠ ((0 : ℝ), (0 : ℝ))) : 0 < vlength v :=
  Real.sqrt_pos.mpr (sq_add_sq_pos h)

/-- Scaling a vector scales its length by the absolute scalar. -/
theorem vlength_scale (c : ℝ) (v : Point) : vlength (vscale c v) = |c| * vlength v := by
  unfold vlength vscale
  rw [show (c * v.1) ^ 2 + (c * v.2) ^ 2 = c ^ 2 * (v.1 ^ 2 + v.2 ^ 2) by ring,
    Real.sqrt_mul (sq_nonneg c), Real.sqrt_sq_eq_abs]

/-- The vector from a point to the origin has the length of the point. -/
theorem vlength_center_sub (b : Point) : vlength (vsub (0, 0) b) = vlength b := by
  unfold vlength vsub
  norm_num

/-- The align-tactic destination sits at offset
(2R / length of ball) * ball from the ball, away from the field centre. -/
theorem updateAlign_offset (w : World) :
    vsub (updateAlignToBallTactic w).dest w.ballPosition =
      vscale (ROBOT_MAX_RADIUS_METERS * 2 / vlength w.ballPosition) w.ballPosition := by
  simp only [updateAlignToBallTactic, vnormalize, vlength_center_sub]
  unfold vsub vscale
  simp only [Prod.mk.injEq]
  constructor <;> ring

/-- Claim C9: on every tick of the waiting, aligning and deciding stages
the align tactic is updated (exactly once per yield), and each update sets
the target position to the ball position offset by exactly twice the robot
radius along the direction away from the field centre, with the target
orientation taken of the vector from the ball toward the field centre. -/
theorem updateAlignToBallTactic_spec :
    (∀ w : World, w.ballPosition ≠ ((0 : ℝ), (0 : ℝ)) →
      vlength (vsub (updateAlignToBallTactic w).dest w.ballPosition) =
        ROBOT_MAX_RADIUS_METERS * 2 ∧
      vsub (updateAlignToBallTactic w).dest w.ballPosition =
        vscale (ROBOT_MAX_RADIUS_METERS * 2 / vlength w.ballPosition) w.ballPosition ∧
      0 < ROBOT_MAX_RADIUS_METERS * 2 / vlength w.ballPosition ∧
      (updateAlignToBallTactic w).orientationOf = vsub (0, 0) w.ballPosition) ∧
    (∀ (a : ℕ → Option ℕ) (fuel t : ℕ),
      (waitLoop a fuel t).1.countP isUpdateAlignEvent =
        (waitLoop a fuel t).1.countP isYieldEvent) ∧
    (∀ (d : ℕ → Bool) (fuel t : ℕ),
      (alignLoop d fuel t).1.countP isUpdateAlignEvent =
        (alignLoop d fuel t).1.countP isYieldEvent) ∧
    (∀ (best : ℕ → PassWithRating) (ts : ℕ → ℚ) (T t0 : ℚ) (fuel t : ℕ),
      (decideLoop best ts T t0 fuel t).1.countP isUpdateAlignEvent =
        (decideLoop best ts T t0 fuel t).1.countP isYieldEvent) := by
  refine ⟨?_, waitLoop_update_per_yield, alignLoop_update_per_yield,
    decideLoop_update_per_yield⟩
  intro w h
  have hlenpos : 0 < vlength w.ballPosition := vlength_pos h
  have hscal : 0 < ROBOT_MAX_RADIUS_METERS * 2 / vlength w.ballPosition := by
    apply div_pos _ hlenpos
    norm_num [ROBOT_MAX_RADIUS_METERS]
  refine ⟨?_, updateAlign_offset w, hscal, rfl⟩
  rw [updateAlign_offset w, vlength_scale, abs_of_pos hscal,
    div_mul_cancel₀ _ (ne_of_gt hlenpos)]

/-- Witness for C9 with the ball one metre from the centre. -/
theorem updateAlignToBallTactic_spec_witness :
    vlength (vsub (updateAlignToBallTactic ballAtUnitWorld).dest
        ballAtUnitWorld.ballPosition) = ROBOT_MAX_RADIUS_METERS * 2 ∧
      vsub (updateAlignToBallTactic ballAtUnitWorld).dest
          ballAtUnitWorld.ballPosition =
        vscale (ROBOT_MAX_RADIUS_METERS * 2 / vlength ballAtUnitWorld.ballPosition)
          ballAtUnitWorld.ballPosition ∧
      0 < ROBOT_MAX_RADIUS_METERS * 2 / vlength ballAtUnitWorld.ballPosition ∧
      (updateAlignToBallTactic ballAtUnitWorld).orientationOf =
        vsub (0, 0) ballAtUnitWorld.ballPosition :=
  updateAlignToBallTactic_spec.1 ballAtUnitWorld (by simp [ballAtUnitWorld])
